import Mathlib

/-!
Verification development for the StockSprint game back end.

The definitions below are shallow embeddings of the server's handlers and
services. Money amounts and prices are modelled as exact rationals (the
source stores JS numbers and rounds to two decimals at the writes that
matter); timestamps are integers in milliseconds. JS `Math.floor(a / b)`
for an integer `a` and positive integer `b` is exactly integer floor
division, which is what `/` on `ℤ` denotes here, and JS `Math.round` is
`round` (floor of `x + 1/2`). The JS remainder `%` agrees with `%` on `ℤ`
for the non-negative dividends that occur in every reachable state; the
theorems about the clock carry that non-negativity as a hypothesis.
-/

namespace StockSprint

/-- Rounding to two decimals, as in `roundToCents` of loanHandlers:
Math.round(amount * 100) / 100. -/
def roundToCents (x : ℚ) : ℚ := ((round (x * 100) : ℤ) : ℚ) / 100

/-! ## User accounts and trading/loan handlers -/

/-- The money-bearing columns of a User row. -/
structure UserAcct where
  cash : ℚ
  stocks : ℤ
  debt : ℚ
  dailyBorrowed : ℚ
deriving DecidableEq

/-- Failure taxonomy surfaced by the real-time handlers. -/
inductive TradeErr where
  | invalidInput
  | gameNotRunning
  | insufficientFunds
  | insufficientHoldings
  | quotaExceeded
deriving DecidableEq

/-- BUY_STOCK handler (tradeHandlers): validate an integer quantity,
charge cost = price * quantity if cash suffices, add the shares.
On failure the user row is unchanged and the error is reported. -/
def buyStock (quantity : ℤ) (price : ℚ) (u : UserAcct) :
    UserAcct × Option TradeErr :=
  if quantity ≤ 0 then (u, some .invalidInput)
  else
    let cost := price * (quantity : ℚ)
    if u.cash < cost then (u, some .insufficientFunds)
    else ({ u with cash := u.cash - cost, stocks := u.stocks + quantity }, none)

/-- SELL_STOCK handler (tradeHandlers): validate an integer quantity,
require stocks ≥ quantity, credit price * quantity. -/
def sellStock (quantity : ℤ) (price : ℚ) (u : UserAcct) :
    UserAcct × Option TradeErr :=
  if quantity ≤ 0 then (u, some .invalidInput)
  else
    let income := price * (quantity : ℚ)
    if u.stocks < quantity then (u, some .insufficientHoldings)
    else ({ u with cash := u.cash + income, stocks := u.stocks - quantity }, none)

/-- BORROW_MONEY handler (loanHandlers): positive amount, rounded to
cents; requires the game started and the daily quota to admit the
rounded amount; credits cash, debt and dailyBorrowed by that amount. -/
def borrowMoney (started : Bool) (maxLoanAmount : ℚ) (amount : ℚ)
    (u : UserAcct) : UserAcct × Option TradeErr :=
  if ¬ (0 < amount) then (u, some .invalidInput)
  else
    let na := roundToCents amount
    if started = false then (u, some .gameNotRunning)
    else if maxLoanAmount < u.dailyBorrowed + na then (u, some .quotaExceeded)
    else
      ({ u with cash := u.cash + na, debt := u.debt + na,
                dailyBorrowed := u.dailyBorrowed + na }, none)

/-- REPAY_MONEY handler (loanHandlers): positive amount, rounded to
cents; requires the game started and cash ≥ the rounded amount; the
amount actually moved is min(rounded amount, debt). -/
def repayMoney (started : Bool) (amount : ℚ) (u : UserAcct) :
    UserAcct × Option TradeErr :=
  if ¬ (0 < amount) then (u, some .invalidInput)
  else
    let na := roundToCents amount
    if started = false then (u, some .gameNotRunning)
    else if u.cash < na then (u, some .insufficientFunds)
    else
      let actualRepayAmount := min na u.debt
      ({ u with cash := u.cash - actualRepayAmount,
                debt := u.debt - actualRepayAmount }, none)

/-! ## Contract orders and settlement -/

inductive ContractType where
  | long
  | short
deriving DecidableEq

/-- A ContractOrder row. -/
structure ContractOrder where
  userId : ℕ
  day : ℕ
  ctype : ContractType
  leverage : ℚ
  quantity : ℕ
  margin : ℚ
  entryPrice : ℚ
  isSettled : Bool
  isCancelled : Bool
deriving DecidableEq

/-- Per-unit profit and loss at the settlement price (settleContracts). -/
def pnlPerStock (newPrice : ℚ) (o : ContractOrder) : ℚ :=
  match o.ctype with
  | .long => newPrice - o.entryPrice
  | .short => o.entryPrice - newPrice

/-- The amount paid back at settlement (settleContracts):
margin + pnlPerStock * quantity. -/
def settlePayout (newPrice : ℚ) (o : ContractOrder) : ℚ :=
  o.margin + pnlPerStock newPrice o * (o.quantity : ℚ)

/-- Effect of settling one order on the owning user's row
(settleContracts): a non-negative payout is credited to cash, a
negative one becomes additional debt. -/
def settleUserRow (newPrice : ℚ) (o : ContractOrder) (u : UserAcct) :
    UserAcct :=
  let payout := settlePayout newPrice o
  if 0 ≤ payout then { u with cash := u.cash + payout }
  else { u with debt := u.debt + |payout| }

/-- Effect of settling on the order row itself (settleContracts). -/
def settleOrderRow (o : ContractOrder) : ContractOrder :=
  { o with isSettled := true }

/-- BUY_CONTRACT handler (tradeHandlers): margin = price * quantity /
leverage is escrowed from cash and the order row is created. -/
def openContract (userId day : ℕ) (ct : ContractType) (leverage : ℚ)
    (quantity : ℕ) (price : ℚ) (maxLeverage : ℚ) (u : UserAcct) :
    Option (UserAcct × ContractOrder) :=
  if quantity = 0 then none
  else if leverage < 1 ∨ maxLeverage < leverage then none
  else
    let requiredMargin := price * (quantity : ℚ) / leverage
    if u.cash < requiredMargin then none
    else some ({ u with cash := u.cash - requiredMargin },
      { userId := userId, day := day, ctype := ct, leverage := leverage,
        quantity := quantity, margin := requiredMargin, entryPrice := price,
        isSettled := false, isCancelled := false })

/-! ## Script cache and price lookup -/

/-- A ScriptDay row as held in the in-memory script cache. The string
contents of title and news never influence control flow, so they are
abstracted to opaque numeric tokens; only their presence matters. -/
structure ScriptDayRec where
  id : ℕ
  day : ℕ
  price : ℚ
  titleTok : Option ℕ
  newsTok : Option ℕ
  publishTimeOffset : Option ℕ
  isNewsBroadcasted : Bool
deriving DecidableEq

/-- getCurrentStockData (gameService): day 0 yields none; a record whose
day matches is returned; past the end of the loaded script the last
loaded record is returned; otherwise none. -/
def getCurrentStockDataFn (day : ℕ) (cache : List ScriptDayRec) :
    Option ScriptDayRec :=
  if day = 0 then none
  else
    match cache.find? (fun d => d.day == day) with
    | some d => some d
    | none => if cache.length < day then cache.getLast? else none

/-- Price resolution used at the top of every trade handler:
currentData ? currentData.price : initialPrice. -/
def resolvePrice (day : ℕ) (cache : List ScriptDayRec) (initialPrice : ℚ) :
    ℚ :=
  match getCurrentStockDataFn day cache with
  | some d => d.price
  | none => initialPrice

/-- markNewsAsBroadcasted (gameService): flips the in-memory flag of the
record with the given id. Defined here because the spec names it; no
tick-loop code path ever calls it. -/
def markNewsAsBroadcastedFn (scriptId : ℕ) (cache : List ScriptDayRec) :
    List ScriptDayRec :=
  cache.map (fun d => if d.id == scriptId then { d with isNewsBroadcasted := true } else d)

/-! ## Clock derivation -/

/-- Core of getGameState once the game has a start time: from the elapsed
milliseconds, the day-length in seconds and the total day count, derive
(currentDay, countdown). Math.floor of the JS divisions is integer floor
division; the remainder agrees with JS % on the non-negative elapsed
values of reachable states. -/
def clockDerive (timeRatioVal totalDays : ℕ) (elapsedMs : ℤ) : ℤ × ℤ :=
  let calculatedDay := elapsedMs / ((timeRatioVal : ℤ) * 1000) + 1
  let countdown := (timeRatioVal : ℤ) - (elapsedMs / 1000) % (timeRatioVal : ℤ)
  (if (totalDays : ℤ) < calculatedDay then (totalDays : ℤ) else calculatedDay,
   if (totalDays : ℤ) < calculatedDay then 0 else countdown)

/-- The persisted GameStatus columns that the clock reads. -/
structure GameStatusRec where
  isGameStarted : Bool
  gameStartTime : Option ℤ
  pausedAt : Option ℤ
  timeRatioVal : ℕ
  totalDays : ℕ
deriving DecidableEq

/-- getGameState (gameService): never-started states report day 0 and
countdown 0; otherwise the day and countdown are derived from the
reference time (pausedAt when paused, else now). -/
def getGameStateFn (gs : GameStatusRec) (nowMs : ℤ) : ℤ × ℤ :=
  if gs.isGameStarted = false ∧ gs.pausedAt = none ∧ gs.gameStartTime = none
  then (0, 0)
  else
    let ref := gs.pausedAt.getD nowMs
    let elapsedMs := ref - (gs.gameStartTime.getD 0)
    clockDerive gs.timeRatioVal gs.totalDays elapsedMs

/-- The timeRatio-rebase branch of updateGameParams (gameService): keep
the completed-day count, and re-seat the within-day position so that
the remaining seconds carry over, truncated to newRatio − 1 when the
new day length is shorter than the remainder. -/
def rebaseGameStartTime (oldRatio newRatio : ℕ) (gameStartTime nowRef : ℤ) :
    ℤ :=
  let oldElapsed := nowRef - gameStartTime
  let oldRatioMs := (oldRatio : ℤ) * 1000
  let completedDays := oldElapsed / oldRatioMs
  let passedMs := oldElapsed % oldRatioMs
  let passedSeconds := passedMs / 1000
  let oldRemainingSeconds := (oldRatio : ℤ) - passedSeconds
  let newRemainingSeconds :=
    if (newRatio : ℤ) < oldRemainingSeconds then (newRatio : ℤ) - 1
    else oldRemainingSeconds
  let newPassedSeconds := (newRatio : ℤ) - newRemainingSeconds
  let newElapsed := completedDays * (newRatio : ℤ) * 1000 + newPassedSeconds * 1000
  nowRef - newElapsed

/-! ## Tick-loop news publication -/

/-- Payload of a NEWS_UPDATE emission (string contents as tokens). -/
structure NewsPayload where
  day : ℕ
  titleTok : ℕ
  contentTok : ℕ
deriving DecidableEq

/-- Second-in-day used by the tick loop:
Math.floor((elapsedTime / 1000) % timeRatio) for the non-negative
elapsed times of reachable states. -/
def secondInDay (timeRatioVal : ℕ) (elapsedMs : ℤ) : ℤ :=
  (elapsedMs / 1000) % (timeRatioVal : ℤ)

/-- The news-publication check of the tick loop (gameLoop tick, the
variant that emits NEWS_UPDATE): when the game is started on a positive
day whose script record has a title and a publish offset, and the
current second-in-day equals the offset, the payload is emitted. The
check reads the isNewsBroadcasted flag of no record and writes nothing
back to the cache or the store. -/
def tickNews (started : Bool) (currentDay : ℕ) (cache : List ScriptDayRec)
    (timeRatioVal : ℕ) (elapsedMs : ℤ) : Option NewsPayload :=
  if started = true ∧ 0 < currentDay then
    match getCurrentStockDataFn currentDay cache with
    | some d =>
      match d.titleTok, d.publishTimeOffset with
      | some t, some off =>
        if secondInDay timeRatioVal elapsedMs = (off : ℤ) then
          some { day := d.day, titleTok := t, contentTok := d.newsTok.getD 0 }
        else none
      | _, _ => none
    | none => none
  else none

/-! ## Minority game settlement -/

inductive ChoiceOpt where
  | A
  | B
  | C
  | D
deriving DecidableEq

/-- One Minority bet (each user's last submission). -/
structure MinBet where
  userId : ℕ
  opt : ChoiceOpt
  amount : ℚ
deriving DecidableEq

def optCount (bets : List MinBet) (o : ChoiceOpt) : ℕ :=
  (bets.filter (fun b => b.opt == o)).length

def optTotal (bets : List MinBet) (o : ChoiceOpt) : ℚ :=
  ((bets.filter (fun b => b.opt == o)).map (fun b => b.amount)).sum

/-- The options somebody voted for, in the fixed A,B,C,D order of the
optionStats object. -/
def votedOptions (bets : List MinBet) : List ChoiceOpt :=
  [ChoiceOpt.A, ChoiceOpt.B, ChoiceOpt.C, ChoiceOpt.D].filter
    (fun o => 0 < optCount bets o)

inductive MinStatus where
  | refund
  | houseWins
  | standard
deriving DecidableEq

/-- Settlement classification (settleMinorityRound Step B): one voted
option refunds, equal counts everywhere means the house wins, otherwise
the strictly smallest count wins. -/
def classifyMinority (bets : List MinBet) : MinStatus :=
  let voted := votedOptions bets
  if voted.length = 1 then .refund
  else
    let counts := voted.map (optCount bets)
    if counts.all (fun c => c = counts.headD 0) then .houseWins
    else .standard

/-- The smallest per-option head count among voted options. -/
def minorityMinCount (bets : List MinBet) : ℕ :=
  ((votedOptions bets).map (optCount bets)).foldr min ((votedOptions bets).map (optCount bets)).headI

def winnerOptions (bets : List MinBet) : List ChoiceOpt :=
  if classifyMinority bets = .standard then
    (votedOptions bets).filter (fun o => optCount bets o = minorityMinCount bets)
  else if classifyMinority bets = .houseWins then []
  else []

def loserOptions (bets : List MinBet) : List ChoiceOpt :=
  if classifyMinority bets = .standard then
    (votedOptions bets).filter (fun o => minorityMinCount bets < optCount bets o)
  else if classifyMinority bets = .houseWins then votedOptions bets
  else []

def loserPool (bets : List MinBet) : ℚ :=
  ((loserOptions bets).map (optTotal bets)).sum

def winnerPool (bets : List MinBet) : ℚ :=
  ((winnerOptions bets).map (optTotal bets)).sum

/-- The per-bet body of the settlement transaction (settleMinorityRound
Step D): refund leaves the row alone; a standard-mode winner with a
positive stake against a positive winner pool gains the rounded
pro-rata share of the loser pool; every other bettor loses the stake,
with any shortfall of cash becoming debt. Returns (cash, debt, profit). -/
def settleOneBet (status : MinStatus) (winners : List ChoiceOpt)
    (lPool wPool : ℚ) (b : MinBet) (cash debt : ℚ) : ℚ × ℚ × ℚ :=
  if status = .refund then (cash, debt, 0)
  else if winners.contains b.opt ∧ status = .standard then
    if 0 < wPool ∧ 0 < b.amount then
      let profit := ((round (b.amount / wPool * lPool) : ℤ) : ℚ)
      (cash + profit, debt, profit)
    else (cash, debt, 0)
  else if b.amount ≤ cash then (cash - b.amount, debt, 0)
  else (0, debt + (b.amount - cash), 0)

/-- Whole-round settlement of one bet against the aggregated pools. -/
def settleMinorityBet (bets : List MinBet) (b : MinBet) (cash debt : ℚ) :
    ℚ × ℚ × ℚ :=
  settleOneBet (classifyMinority bets) (winnerOptions bets)
    (loserPool bets) (winnerPool bets) b cash debt

/-! ## Quiz settlement -/

structure QuizRewards where
  first : ℚ
  second : ℚ
  third : ℚ
  others : ℚ
deriving DecidableEq

/-- One stored quiz answer: chosen option and submission timestamp (ms). -/
structure QuizAnswer where
  userId : ℕ
  ans : ChoiceOpt
  ts : ℤ
deriving DecidableEq

/-- The reward of the correct answerer at zero-based sorted position i
(settleQuizRound step 3): fixed amounts for the first three, then the
rounded linear interpolation from others to third driven by the clamped
remaining-time ratio. duration is in seconds and defaulted to 10 when
zero, as by the `|| 10` in the source; timestamps are milliseconds. -/
def quizRewardAt (rw : QuizRewards) (durationSec : ℚ) (gamingEndTime : ℤ)
    (i : ℕ) (ts : ℤ) : ℚ :=
  if i = 0 then rw.first
  else if i = 1 then rw.second
  else if i = 2 then rw.third
  else
    let durMs := (if durationSec = 0 then 10 else durationSec) * 1000
    let remainingTime : ℚ := ((gamingEndTime - ts : ℤ) : ℚ)
    let clampRate := max 0 (min 1 (remainingTime / durMs))
    ((round (rw.others + (rw.third - rw.others) * clampRate) : ℤ) : ℚ)

/-- Correct answers sorted by submission timestamp ascending
(settleQuizRound step 2). -/
def correctSorted (answers : List QuizAnswer) (correct : ChoiceOpt) :
    List QuizAnswer :=
  (answers.filter (fun a => a.ans == correct)).mergeSort
    (fun a b => a.ts ≤ b.ts)

/-- The (userId, reward) list produced by the settlement loop. -/
def quizPayoutList (rw : QuizRewards) (durationSec : ℚ)
    (gamingEndTime : ℤ) (answers : List QuizAnswer) (correct : ChoiceOpt) :
    List (ℕ × ℚ) :=
  (correctSorted answers correct).enum.map
    (fun p => (p.2.userId, quizRewardAt rw durationSec gamingEndTime p.1 p.2.ts))

/-- Applying the per-winner cash increments of the settlement
transaction to a ledger of (userId, cash) rows. -/
def applyQuizRewards (payouts : List (ℕ × ℚ)) (ledger : List (ℕ × ℚ)) :
    List (ℕ × ℚ) :=
  payouts.foldl
    (fun acc p => acc.map (fun row => if row.1 == p.1 then (row.1, row.2 + p.2) else row))
    ledger

/-! ## Concrete fixtures -/

/-- The order of the spec's leveraged-settlement scenario: LONG, 4 units
at leverage 5, opened at price 10 with margin 8. -/
def c1Order : ContractOrder :=
  { userId := 1, day := 5, ctype := .long, leverage := 5, quantity := 4,
    margin := 8, entryPrice := 10, isSettled := false, isCancelled := false }

/-- A script day whose news has already been broadcast. -/
def c2Rec : ScriptDayRec :=
  { id := 3, day := 1, price := 10, titleTok := some 7, newsTok := some 8,
    publishTimeOffset := some 5, isNewsBroadcasted := true }

/-- A one-day script cache with price 10 on day 1. -/
def c7Cache : List ScriptDayRec :=
  [{ id := 1, day := 1, price := 10, titleTok := none, newsTok := none,
     publishTimeOffset := none, isNewsBroadcasted := false }]

/-! ## Claims -/

/-- Claim C1, counterexample: settlement pays
margin + pnlPerUnit * quantity with no leverage factor, so the spec's
scenario (LONG, q = 4, leverage 5, entry 10, exit 12, margin 8) credits
16 to cash, not the 48 the claimed formula
margin + pnlPerUnit * quantity * leverage would give. -/
theorem C1_payout_counterexample :
    settlePayout 12 c1Order = 16 ∧
    c1Order.margin +
      pnlPerStock 12 c1Order * (c1Order.quantity : ℚ) * c1Order.leverage = 48 ∧
    settlePayout 12 c1Order ≠
      c1Order.margin +
        pnlPerStock 12 c1Order * (c1Order.quantity : ℚ) * c1Order.leverage ∧
    (settleUserRow 12 c1Order ⟨0, 0, 0, 0⟩).cash = 16 := by
  refine ⟨?_, ?_, ?_, ?_⟩ <;>
    norm_num [settlePayout, settleUserRow, pnlPerStock, c1Order]

/-- Claim C1, amended: settlement pays
payout = margin + pnlPerUnit * quantity (leverage only scales the margin
at open); a non-negative payout is credited to cash with debt unchanged,
a negative one increases debt by its absolute value with cash unchanged,
and the order is marked settled. The spec scenario credits 16. -/
theorem C1_settlement_amended (newPrice : ℚ) (o : ContractOrder)
    (u : UserAcct) :
    settlePayout newPrice o = o.margin + pnlPerStock newPrice o * (o.quantity : ℚ) ∧
    (0 ≤ settlePayout newPrice o →
      (settleUserRow newPrice o u).cash = u.cash + settlePayout newPrice o ∧
      (settleUserRow newPrice o u).debt = u.debt) ∧
    (settlePayout newPrice o < 0 →
      (settleUserRow newPrice o u).debt = u.debt + |settlePayout newPrice o| ∧
      (settleUserRow newPrice o u).cash = u.cash) ∧
    (settleOrderRow o).isSettled = true ∧
    (settleUserRow 12 c1Order ⟨0, 0, 0, 0⟩).cash = 16 := by
  refine ⟨rfl, fun h => ?_, fun h => ?_, rfl, ?_⟩
  · simp [settleUserRow, h]
  · rw [settleUserRow, if_neg (not_le.mpr h)]
    exact ⟨rfl, rfl⟩
  · norm_num [settleUserRow, settlePayout, pnlPerStock, c1Order]

/-- Claim C2: the tick loop's news check emits NEWS_UPDATE whenever the
current second-in-day equals the publish offset, even for a record whose
isNewsBroadcasted flag is already true, and it never invokes the cache
or store marking (markNewsAsBroadcastedFn is dead code on this path),
so emission is not gated or made at-most-once by the flag. -/
theorem C2_news_not_gated_by_flag :
    c2Rec.isNewsBroadcasted = true ∧
    tickNews true 1 [c2Rec] 60 5000 = some ⟨1, 7, 8⟩ ∧
    tickNews true 1 (markNewsAsBroadcastedFn 3 [c2Rec]) 60 5000 =
      some ⟨1, 7, 8⟩ := by
  refine ⟨rfl, by decide, by decide⟩

/-- Claim C10: day 0 resolves to no record (the handlers then price at
initialPrice); a record matching the requested day is returned; a day
beyond the loaded script length returns the last loaded record; an
in-range day with no record returns none; and the trade handlers price
a none result at initialPrice and a some result at its price. -/
theorem C10_price_lookup (cache : List ScriptDayRec) (d : ℕ) (P0 : ℚ) :
    (getCurrentStockDataFn 0 cache = none ∧ resolvePrice 0 cache P0 = P0) ∧
    (∀ r, d ≠ 0 → cache.find? (fun x => x.day == d) = some r →
      getCurrentStockDataFn d cache = some r) ∧
    (cache.find? (fun x => x.day == d) = none → cache.length < d →
      getCurrentStockDataFn d cache = cache.getLast?) ∧
    (d ≠ 0 → cache.find? (fun x => x.day == d) = none → d ≤ cache.length →
      getCurrentStockDataFn d cache = none) ∧
    (∀ r, getCurrentStockDataFn d cache = some r →
      resolvePrice d cache P0 = r.price) ∧
    (getCurrentStockDataFn d cache = none → resolvePrice d cache P0 = P0) := by
  refine ⟨⟨by simp [getCurrentStockDataFn], by simp [resolvePrice, getCurrentStockDataFn]⟩,
    fun r hd hf => ?_, fun hf hlen => ?_, fun hd hf hle => ?_,
    fun r h => ?_, fun h => ?_⟩
  · simp [getCurrentStockDataFn, hd, hf]
  · have hd : d ≠ 0 := by omega
    simp [getCurrentStockDataFn, hd, hf, hlen]
  · simp [getCurrentStockDataFn, hd, hf, Nat.not_lt.mpr hle]
  · simp [resolvePrice, h]
  · simp [resolvePrice, h]

/-- Claim C7: a spot buy of an integer quantity at the resolved price
commits cash − P*q and stocks + q when cash covers the cost, and fails
with the insufficient-funds error leaving the row untouched otherwise;
concretely, at the day-1 price 10, BUY 3 from cash 50 yields cash 20 and
3 stocks, and BUY 5 from cash 20 fails. -/
theorem C7_spot_buy (q : ℤ) (P : ℚ) (u : UserAcct) (hq : 1 ≤ q) :
    (P * (q : ℚ) ≤ u.cash →
      buyStock q P u =
        ({ u with cash := u.cash - P * (q : ℚ), stocks := u.stocks + q }, none)) ∧
    (u.cash < P * (q : ℚ) → buyStock q P u = (u, some .insufficientFunds)) ∧
    resolvePrice 1 c7Cache 50 = 10 ∧
    buyStock 3 (resolvePrice 1 c7Cache 50) ⟨50, 0, 0, 0⟩ =
      (⟨20, 3, 0, 0⟩, none) ∧
    buyStock 5 (resolvePrice 1 c7Cache 50) ⟨20, 3, 0, 0⟩ =
      (⟨20, 3, 0, 0⟩, some .insufficientFunds) := by
  have hq' : ¬ q ≤ 0 := by omega
  have hP : resolvePrice 1 c7Cache 50 = 10 := by
    simp [resolvePrice, getCurrentStockDataFn, c7Cache]
  refine ⟨fun h => ?_, fun h => ?_, hP, ?_, ?_⟩
  · rw [buyStock, if_neg hq', if_neg (not_lt.mpr h)]
  · rw [buyStock, if_neg hq', if_pos h]
  · rw [hP]; norm_num [buyStock]
  · rw [hP]; norm_num [buyStock]

/-- Witness for C7 at the spec's concrete input. -/
theorem C7_spot_buy_witness :
    1 ≤ (3 : ℤ) ∧
    buyStock 3 10 ⟨50, 0, 0, 0⟩ = (⟨20, 3, 0, 0⟩, none) := by
  refine ⟨by norm_num, ?_⟩
  have h := (C7_spot_buy 3 10 ⟨50, 0, 0, 0⟩ (by norm_num)).1 (by norm_num)
  rw [h]
  norm_num

/-- Claim C5: a borrow of a positive amount succeeds exactly when the
game is started and the rounded amount fits the daily quota; on success
cash, debt and dailyBorrowed each grow by the rounded amount and the
quota invariant dailyBorrowed ≤ maxLoanAmount holds afterwards; on any
failure the user row is unchanged. -/
theorem C5_borrow_money (started : Bool) (maxLoanAmount amount : ℚ)
    (u : UserAcct) (hpos : 0 < amount) :
    ((borrowMoney started maxLoanAmount amount u).2 = none ↔
      started = true ∧
        u.dailyBorrowed + roundToCents amount ≤ maxLoanAmount) ∧
    ((borrowMoney started maxLoanAmount amount u).2 = none →
      (borrowMoney started maxLoanAmount amount u).1 =
        { u with cash := u.cash + roundToCents amount,
                 debt := u.debt + roundToCents amount,
                 dailyBorrowed := u.dailyBorrowed + roundToCents amount } ∧
      (borrowMoney started maxLoanAmount amount u).1.dailyBorrowed ≤
        maxLoanAmount) ∧
    (∀ e, (borrowMoney started maxLoanAmount amount u).2 = some e →
      (borrowMoney started maxLoanAmount amount u).1 = u) := by
  rw [borrowMoney, if_neg (not_not_intro hpos)]
  cases started with
  | false => simp
  | true =>
    by_cases hq : maxLoanAmount < u.dailyBorrowed + roundToCents amount
    · simp [hq]
    · simp [hq, not_lt.mp hq]

/-- Witness for C5: borrowing 100 with 900 already borrowed against a
1000 quota succeeds. -/
theorem C5_borrow_money_witness :
    0 < (100 : ℚ) ∧ (borrowMoney true 1000 100 ⟨0, 0, 0, 900⟩).2 = none := by
  refine ⟨by norm_num, ?_⟩
  exact (C5_borrow_money true 1000 100 ⟨0, 0, 0, 900⟩ (by norm_num)).1.mpr
    ⟨rfl, by norm_num [roundToCents, round_eq]⟩

/-- Claim C6: a repay of a positive amount requires the game started and
cash at least the full rounded request (even when debt is smaller); on
success the amount actually moved is min(request, debt), deducted from
both cash and debt, and the resulting debt is never negative; on failure
the row is unchanged. -/
theorem C6_repay_money (started : Bool) (amount : ℚ) (u : UserAcct)
    (hpos : 0 < amount) :
    ((repayMoney started amount u).2 = none ↔
      started = true ∧ roundToCents amount ≤ u.cash) ∧
    ((repayMoney started amount u).2 = none →
      (repayMoney started amount u).1 =
        { u with cash := u.cash - min (roundToCents amount) u.debt,
                 debt := u.debt - min (roundToCents amount) u.debt } ∧
      (0 ≤ u.debt → 0 ≤ (repayMoney started amount u).1.debt)) ∧
    (∀ e, (repayMoney started amount u).2 = some e →
      (repayMoney started amount u).1 = u) := by
  rw [repayMoney, if_neg (not_not_intro hpos)]
  cases started with
  | false => simp
  | true =>
    by_cases hc : u.cash < roundToCents amount
    · simp [hc]
    · refine ⟨by simp [hc, not_lt.mp hc], fun _ => ⟨by simp [hc], fun _ => ?_⟩,
        by simp [hc]⟩
      simp only [hc, if_false, ite_false]
      exact sub_nonneg.mpr (min_le_right _ _)

/-- Witness for C6: repaying 50 from cash 100 against debt 30 moves 30. -/
theorem C6_repay_money_witness :
    0 < (50 : ℚ) ∧ (repayMoney true 50 ⟨100, 0, 30, 0⟩).2 = none := by
  refine ⟨by norm_num, ?_⟩
  exact (C6_repay_money true 50 ⟨100, 0, 30, 0⟩ (by norm_num)).1.mpr
    ⟨rfl, by norm_num [roundToCents, round_eq]⟩

/-- Modelled from the spec's words for comparison with the source
formula: rank 1..3 get the fixed rewards, and every later rank gets
round(others + (third − others) · clamp((endTime − ts) / duration, 0, 1))
with the clamp written as a max/min pair. -/
def quizSpecReward (rw : QuizRewards) (durationSec : ℚ) (endT : ℤ)
    (i : ℕ) (ts : ℤ) : ℚ :=
  if i = 0 then rw.first
  else if i = 1 then rw.second
  else if i = 2 then rw.third
  else
    let durMs := (if durationSec = 0 then 10 else durationSec) * 1000
    let clampRate := max 0 (min 1 (((endT - ts : ℤ) : ℚ) / durMs))
    ((round (rw.others + (rw.third - rw.others) * clampRate) : ℤ) : ℚ)

/-- The rewards table of the spec's quiz scenario. -/
def c9Rewards : QuizRewards := ⟨100, 60, 40, 10⟩

/-- Six stored quiz answers, one of them wrong; the gaming phase ends at
t = 10000 ms and the question's duration is 10 seconds. -/
def c9Answers : List QuizAnswer :=
  [⟨1, .A, 1000⟩, ⟨2, .A, 2000⟩, ⟨6, .B, 2100⟩, ⟨3, .A, 2200⟩,
   ⟨4, .A, 2500⟩, ⟨5, .A, 3000⟩]

/-- Claim C9: the correct answerers, sorted by submission time
ascending, receive first/second/third fixed rewards and, from the
fourth on, the rounded interpolation from others to third weighted by
the clamped remaining-time ratio; the settlement credits each winner by
exactly that reward. In the concrete scenario the fifth correct answer,
7 s before the end of a 10 s question, earns 31. -/
theorem C9_quiz_rewards (rw : QuizRewards) (durationSec : ℚ) (endT : ℤ)
    (answers : List QuizAnswer) (correct : ChoiceOpt) :
    (∀ (i : ℕ) (a : QuizAnswer),
      (correctSorted answers correct)[i]? = some a →
      (quizPayoutList rw durationSec endT answers correct)[i]? =
        some (a.userId, quizSpecReward rw durationSec endT i a.ts)) ∧
    List.Pairwise (fun a b : QuizAnswer => a.ts ≤ b.ts)
      (correctSorted answers correct) ∧
    quizPayoutList c9Rewards 10 10000 c9Answers .A =
      [(1, 100), (2, 60), (3, 40), (4, 33), (5, 31)] ∧
    applyQuizRewards (quizPayoutList c9Rewards 10 10000 c9Answers .A)
      [(5, 100)] = [(5, 131)] := by
  have hcs : correctSorted c9Answers .A =
      [⟨1, .A, 1000⟩, ⟨2, .A, 2000⟩, ⟨3, .A, 2200⟩, ⟨4, .A, 2500⟩,
       ⟨5, .A, 3000⟩] := by
    rw [correctSorted, show c9Answers.filter (fun a => a.ans == .A) =
      [⟨1, .A, 1000⟩, ⟨2, .A, 2000⟩, ⟨3, .A, 2200⟩, ⟨4, .A, 2500⟩,
       ⟨5, .A, 3000⟩] from by decide]
    exact List.mergeSort_of_sorted (by decide)
  have hconc : quizPayoutList c9Rewards 10 10000 c9Answers .A =
      [(1, 100), (2, 60), (3, 40), (4, 33), (5, 31)] := by
    rw [quizPayoutList, hcs]
    norm_num [List.enum, List.enumFrom, quizRewardAt, c9Rewards, round_eq]
  refine ⟨fun i a ha => ?_, ?_, hconc, ?_⟩
  · rw [quizPayoutList, List.getElem?_map, List.getElem?_enum, ha]
    simp [quizRewardAt, quizSpecReward]
  · refine (List.sorted_mergeSort
      (fun a b c hab hbc => by simp only [decide_eq_true_eq] at *; omega)
      (fun a b => by simp only [Bool.or_eq_true, decide_eq_true_eq]; omega)
      _).imp ?_
    intro a b h
    simpa using h
  · rw [hconc]
    norm_num [applyQuizRewards]

/-- The spec's Minority scenario: one bettor on A with 100, three on B
with 60 each, two on C with 50 each. -/
def c8Bets : List MinBet :=
  [⟨1, .A, 100⟩, ⟨2, .B, 60⟩, ⟨3, .B, 60⟩, ⟨4, .B, 60⟩,
   ⟨5, .C, 50⟩, ⟨6, .C, 50⟩]

/-- Claim C8: in a STANDARD Minority settlement a winning bettor with a
positive stake against a positive winner pool gains the rounded
pro-rata share of the loser pool (otherwise zero), and a losing bettor
loses the stake from cash when it covers it, else cash drops to zero
and the shortfall becomes debt; in the concrete scenario the single
bettor on A gains 280. -/
theorem C8_minority_standard (bets : List MinBet) (b : MinBet)
    (cash debt : ℚ) (hstd : classifyMinority bets = .standard) :
    (b.opt ∈ winnerOptions bets → 0 < winnerPool bets → 0 < b.amount →
      settleMinorityBet bets b cash debt =
        (cash + ((round (b.amount / winnerPool bets * loserPool bets) : ℤ) : ℚ),
         debt,
         ((round (b.amount / winnerPool bets * loserPool bets) : ℤ) : ℚ))) ∧
    (b.opt ∈ winnerOptions bets → ¬ (0 < winnerPool bets ∧ 0 < b.amount) →
      settleMinorityBet bets b cash debt = (cash, debt, 0)) ∧
    (b.opt ∉ winnerOptions bets → b.amount ≤ cash →
      settleMinorityBet bets b cash debt = (cash - b.amount, debt, 0)) ∧
    (b.opt ∉ winnerOptions bets → cash < b.amount →
      settleMinorityBet bets b cash debt = (0, debt + (b.amount - cash), 0)) ∧
    (classifyMinority c8Bets = .standard ∧ winnerOptions c8Bets = [.A] ∧
     loserPool c8Bets = 280 ∧ winnerPool c8Bets = 100 ∧
     settleMinorityBet c8Bets ⟨1, .A, 100⟩ 0 0 = (280, 0, 280)) := by
  have hwin : winnerOptions c8Bets = [ChoiceOpt.A] := by decide
  have hlose : loserOptions c8Bets = [ChoiceOpt.B, ChoiceOpt.C] := by decide
  have e1 : (ChoiceOpt.A == ChoiceOpt.B) = false := by decide
  have e2 : (ChoiceOpt.B == ChoiceOpt.B) = true := by decide
  have e3 : (ChoiceOpt.C == ChoiceOpt.B) = false := by decide
  have e4 : (ChoiceOpt.A == ChoiceOpt.C) = false := by decide
  have e5 : (ChoiceOpt.B == ChoiceOpt.C) = false := by decide
  have e6 : (ChoiceOpt.C == ChoiceOpt.C) = true := by decide
  have e7 : (ChoiceOpt.A == ChoiceOpt.A) = true := by decide
  have e8 : (ChoiceOpt.B == ChoiceOpt.A) = false := by decide
  have e9 : (ChoiceOpt.C == ChoiceOpt.A) = false := by decide
  have hlp : loserPool c8Bets = 280 := by
    rw [loserPool, hlose]
    simp [optTotal, c8Bets, List.filter, e1, e2, e3, e4, e5, e6]
    norm_num
  have hwp : winnerPool c8Bets = 100 := by
    rw [winnerPool, hwin]
    simp [optTotal, c8Bets, List.filter, e7, e8, e9]
  have hconc : settleMinorityBet c8Bets ⟨1, .A, 100⟩ 0 0 = (280, 0, 280) := by
    rw [settleMinorityBet, show classifyMinority c8Bets = .standard from by decide,
      hwin, hlp, hwp, settleOneBet,
      if_neg (show ¬(MinStatus.standard = MinStatus.refund) from by decide)]
    norm_num [round_eq]
  refine ⟨fun hm hwpool hamt => ?_, fun hm hneg => ?_, fun hm hle => ?_,
    fun hm hlt => ?_, by decide, hwin, hlp, hwp, hconc⟩
  · rw [settleMinorityBet, hstd, settleOneBet]
    simp [hm, hwpool, hamt]
  · rw [settleMinorityBet, hstd, settleOneBet]
    simp [hm, hneg]
  · rw [settleMinorityBet, hstd, settleOneBet]
    simp [hm, hle]
  · rw [settleMinorityBet, hstd, settleOneBet]
    simp [hm, not_le.mpr hlt]

/-- Witness for C8 at the spec's concrete scenario. -/
theorem C8_minority_standard_witness :
    classifyMinority c8Bets = MinStatus.standard ∧
    settleMinorityBet c8Bets ⟨1, .A, 100⟩ 0 0 = (280, 0, 280) :=
  ⟨by decide,
   (C8_minority_standard c8Bets ⟨1, .A, 100⟩ 0 0 (by decide)).2.2.2.2.2.2.2.2⟩

/-! ## Clock theorems -/

/-- The millisecond-level clock of the source equals the whole-seconds
formula of the spec on non-negative elapsed times. -/
lemma clockDerive_spec (R T : ℕ) (e : ℤ) (hR : 0 < R) (he : 0 ≤ e) :
    clockDerive R T e =
      (((if T < e.toNat / 1000 / R + 1 then T
         else e.toNat / 1000 / R + 1 : ℕ) : ℤ),
       ((if T < e.toNat / 1000 / R + 1 then 0
         else R - e.toNat / 1000 % R : ℕ) : ℤ)) := by
  obtain ⟨m, rfl⟩ : ∃ m : ℕ, e = (m : ℤ) :=
    ⟨e.toNat, (Int.toNat_of_nonneg he).symm⟩
  rw [clockDerive, Int.toNat_natCast]
  have hA : (m : ℤ) / ((R : ℤ) * 1000) = ((m / 1000 / R : ℕ) : ℤ) := by
    rw [Nat.div_div_eq_div_mul]
    push_cast
    rw [mul_comm]
  have hB : ((m : ℤ) / 1000) % (R : ℤ) = ((m / 1000 % R : ℕ) : ℤ) := by
    push_cast
    rfl
  simp only [hA, hB]
  have hlt : m / 1000 % R < R := Nat.mod_lt _ hR
  have hZ : ((T : ℤ) < ((m / 1000 / R : ℕ) : ℤ) + 1) ↔ T < m / 1000 / R + 1 := by
    constructor <;> intro h <;> exact_mod_cast h
  simp only [hZ]
  by_cases hc : T < m / 1000 / R + 1
  · simp only [if_pos hc]
    simp
  · simp only [if_neg hc, Prod.mk.injEq]
    constructor
    · push_cast
      ring
    · rw [Nat.cast_sub hlt.le]

/-- Claim C3: a never-started game derives day 0 and countdown 0; with a
start time, the derived state follows the spec formula on whole elapsed
seconds: currentDay = elapsed / timeRatio + 1 clamped to totalDays, and
countdown = timeRatio − elapsed mod timeRatio, forced to 0 once the raw
day exceeds totalDays. -/
theorem C3_game_state_derivation (gs : GameStatusRec) (nowMs : ℤ)
    (hR : 0 < gs.timeRatioVal) :
    (gs.isGameStarted = false → gs.pausedAt = none → gs.gameStartTime = none →
      getGameStateFn gs nowMs = (0, 0)) ∧
    (∀ st : ℤ, gs.gameStartTime = some st →
      st ≤ gs.pausedAt.getD nowMs →
      getGameStateFn gs nowMs =
        (((if gs.totalDays <
              (gs.pausedAt.getD nowMs - st).toNat / 1000 / gs.timeRatioVal + 1
           then gs.totalDays
           else (gs.pausedAt.getD nowMs - st).toNat / 1000 / gs.timeRatioVal + 1 : ℕ) : ℤ),
         ((if gs.totalDays <
              (gs.pausedAt.getD nowMs - st).toNat / 1000 / gs.timeRatioVal + 1
           then 0
           else gs.timeRatioVal -
             (gs.pausedAt.getD nowMs - st).toNat / 1000 % gs.timeRatioVal : ℕ) : ℤ))) := by
  constructor
  · intro h1 h2 h3
    rw [getGameStateFn, if_pos ⟨h1, h2, h3⟩]
  · intro st hst hle
    have hguard : ¬(gs.isGameStarted = false ∧ gs.pausedAt = none ∧
        gs.gameStartTime = none) := by
      rintro ⟨-, -, h⟩
      rw [hst] at h
      cases h
    rw [getGameStateFn, if_neg hguard]
    show clockDerive gs.timeRatioVal gs.totalDays
      (gs.pausedAt.getD nowMs - (gs.gameStartTime.getD 0)) = _
    rw [hst]
    exact clockDerive_spec _ _ _ hR (by simp; omega)

/-- Witness for C3: at 125 s into a 60 s-per-day run the derived state
is day 3 with 55 s to the next day. -/
theorem C3_game_state_derivation_witness :
    0 < (60 : ℕ) ∧
    getGameStateFn ⟨true, some 0, none, 60, 120⟩ 125000 = (3, 55) := by
  refine ⟨by decide, ?_⟩
  have h := (C3_game_state_derivation ⟨true, some 0, none, 60, 120⟩ 125000
    (by decide)).2 0 rfl (by decide)
  rw [h]
  decide

/-- What the rebase leaves as the new elapsed time, in whole quantities:
the completed days are re-priced at the new ratio and the within-day
position becomes 1 s (imminent rollover) or the carried-over remainder. -/
lemma rebase_elapsed (oldR newR : ℕ) (st now : ℤ) (h1 : 0 < oldR)
    (h3 : st ≤ now) :
    now - rebaseGameStartTime oldR newR st now =
      ((((now - st).toNat / (1000 * oldR) * newR +
         (if newR < oldR - (now - st).toNat / 1000 % oldR then 1
          else newR - (oldR - (now - st).toNat / 1000 % oldR))) * 1000 : ℕ) : ℤ) := by
  obtain ⟨m, hm⟩ : ∃ m : ℕ, now - st = (m : ℤ) :=
    ⟨(now - st).toNat, (Int.toNat_of_nonneg (by omega)).symm⟩
  rw [rebaseGameStartTime, hm, Int.toNat_natCast]
  have hA : (m : ℤ) / ((oldR : ℤ) * 1000) = ((m / (1000 * oldR) : ℕ) : ℤ) := by
    push_cast
    rw [mul_comm]
  have hB : ((m : ℤ) % ((oldR : ℤ) * 1000)) / 1000 = ((m / 1000 % oldR : ℕ) : ℤ) := by
    rw [show m / 1000 % oldR = m % (1000 * oldR) / 1000 from
      (Nat.mod_mul_right_div_self m 1000 oldR).symm]
    push_cast
    rw [mul_comm]
  rw [hA, hB]
  have hr : m / 1000 % oldR < oldR := Nat.mod_lt _ h1
  have hq : ((m / (1000 * oldR) * newR : ℕ) : ℤ) =
      ((m / (1000 * oldR) : ℕ) : ℤ) * (newR : ℤ) := by push_cast; ring
  by_cases hc : newR < oldR - m / 1000 % oldR
  · rw [if_pos (by omega), if_pos hc]
    push_cast
    ring_nf
  · rw [if_neg (by omega), if_neg hc]
    push_cast [Nat.cast_sub (by omega : oldR - m / 1000 % oldR ≤ newR),
      Nat.cast_sub hr.le]
    ring_nf

/-- Claim C4, counterexample: shrinking timeRatio from 60 to 1 with 58 s
of day 1 elapsed (2 s remaining) rebases the start so that the derived
day jumps from 1 to 2 and the new countdown is 1, which is neither the
old remaining 2 nor newRatio − 1 = 0; the day therefore is not
preserved and grows across the call. -/
theorem C4_rebase_counterexample :
    getGameStateFn ⟨true, some (-58000), none, 60, 120⟩ 0 = (1, 2) ∧
    rebaseGameStartTime 60 1 (-58000) 0 = -1000 ∧
    getGameStateFn ⟨true, some (rebaseGameStartTime 60 1 (-58000) 0),
      none, 1, 120⟩ 0 = (2, 1) ∧
    ¬ ((2 : ℤ) ≤ 1) ∧ (1 : ℤ) ≠ 2 ∧ (1 : ℤ) ≠ (1 : ℤ) - 1 := by
  refine ⟨by decide, by decide, by decide, by decide, by decide, by decide⟩

/-- Claim C4, amended: whenever the new ratio is at least 2 seconds, the
rebase preserves the derived current day exactly (so it never grows),
and the derived countdown afterwards is the old remaining seconds when
newRatio is at least that remainder, and newRatio − 1 when newRatio is
smaller; with newRatio = 1 and more than one second remaining the
truncation to newRatio − 1 = 0 overshoots the day boundary instead. -/
theorem C4_rebase_amended (oldR newR T : ℕ) (st now : ℤ)
    (h1 : 0 < oldR) (h2 : 2 ≤ newR) (h3 : st ≤ now) :
    (getGameStateFn ⟨true, some (rebaseGameStartTime oldR newR st now),
        none, newR, T⟩ now).1 =
      (getGameStateFn ⟨true, some st, none, oldR, T⟩ now).1 ∧
    ((getGameStateFn ⟨true, some st, none, oldR, T⟩ now).2 ≤ (newR : ℤ) →
      (getGameStateFn ⟨true, some (rebaseGameStartTime oldR newR st now),
        none, newR, T⟩ now).2 =
      (getGameStateFn ⟨true, some st, none, oldR, T⟩ now).2) ∧
    ((newR : ℤ) < (getGameStateFn ⟨true, some st, none, oldR, T⟩ now).2 →
      (getGameStateFn ⟨true, some (rebaseGameStartTime oldR newR st now),
        none, newR, T⟩ now).2 = (newR : ℤ) - 1) ∧
    (getGameStateFn ⟨true, some (rebaseGameStartTime oldR newR st now),
        none, newR, T⟩ now).1 ≤
      (getGameStateFn ⟨true, some st, none, oldR, T⟩ now).1 := by
  have hrb := rebase_elapsed oldR newR st now h1 h3
  have eOld : getGameStateFn ⟨true, some st, none, oldR, T⟩ now =
      clockDerive oldR T (now - st) := by
    rw [getGameStateFn, if_neg (by simp)]
    rfl
  have eNew : getGameStateFn ⟨true, some (rebaseGameStartTime oldR newR st now),
      none, newR, T⟩ now =
      clockDerive newR T (now - rebaseGameStartTime oldR newR st now) := by
    rw [getGameStateFn, if_neg (by simp)]
    rfl
  rw [eOld, eNew, clockDerive_spec oldR T _ h1 (by omega),
    clockDerive_spec newR T _ (by omega) (by rw [hrb]; exact Int.natCast_nonneg _),
    hrb, Int.toNat_natCast]
  have hr : (now - st).toNat / 1000 % oldR < oldR :=
    Nat.mod_lt _ h1
  have hdd : (now - st).toNat / (1000 * oldR) = (now - st).toNat / 1000 / oldR :=
    (Nat.div_div_eq_div_mul _ _ _).symm
  rw [hdd]
  generalize (now - st).toNat / 1000 = s at *
  generalize hgr : s % oldR = r at *
  generalize hga : s / oldR = a at *
  have hp : (if newR < oldR - r then 1 else newR - (oldR - r)) < newR := by
    split <;> omega
  generalize hgp : (if newR < oldR - r then 1 else newR - (oldR - r)) = p at *
  have h1000 : (a * newR + p) * 1000 / 1000 = a * newR + p := by
    omega
  rw [h1000]
  have hdiv : (a * newR + p) / newR = a := by
    rw [mul_comm, Nat.mul_add_div (by omega), Nat.div_eq_of_lt hp, Nat.add_zero]
  have hmod : (a * newR + p) % newR = p := by
    rw [mul_comm, Nat.mul_add_mod, Nat.mod_eq_of_lt hp]
  rw [hdiv, hmod]
  by_cases hT : T < a + 1
  · simp only [if_pos hT, eq_self_iff_true, true_and, and_true, le_refl]
    refine ⟨fun _ => trivial, fun hc => ?_⟩
    omega
  · simp only [if_neg hT, eq_self_iff_true, true_and, and_true, le_refl]
    constructor
    · intro hc
      rw [← hgp, if_neg (by omega)]
      omega
    · intro hc
      rw [← hgp, if_pos (by omega)]
      omega

/-- Witness for C4 at a concrete rebase from 60 s to 10 s days. -/
theorem C4_rebase_amended_witness :
    (getGameStateFn ⟨true, some (rebaseGameStartTime 60 10 (-58000) 0),
        none, 10, 120⟩ 0).1 =
      (getGameStateFn ⟨true, some (-58000), none, 60, 120⟩ 0).1 ∧
    ((getGameStateFn ⟨true, some (-58000), none, 60, 120⟩ 0).2 ≤ (10 : ℤ) →
      (getGameStateFn ⟨true, some (rebaseGameStartTime 60 10 (-58000) 0),
        none, 10, 120⟩ 0).2 =
      (getGameStateFn ⟨true, some (-58000), none, 60, 120⟩ 0).2) ∧
    ((10 : ℤ) < (getGameStateFn ⟨true, some (-58000), none, 60, 120⟩ 0).2 →
      (getGameStateFn ⟨true, some (rebaseGameStartTime 60 10 (-58000) 0),
        none, 10, 120⟩ 0).2 = (10 : ℤ) - 1) ∧
    (getGameStateFn ⟨true, some (rebaseGameStartTime 60 10 (-58000) 0),
        none, 10, 120⟩ 0).1 ≤
      (getGameStateFn ⟨true, some (-58000), none, 60, 120⟩ 0).1 :=
  C4_rebase_amended 60 10 120 (-58000) 0 (by decide) (by decide) (by decide)

end StockSprint
